import Mathlib

/-!
# Verification of the HYDE music-recommendation engine

A shallow embedding of the `MusicRecommendationEngine` class from
`src/Frontend/src/hooks/usePlayer.tsx`, together with theorems settling the
frozen claims about it.

Modelling conventions:
* JavaScript numbers are modelled as `ℚ` (all arithmetic the engine performs —
  additions of decimal literals, divisions, comparisons — is exact on the
  rationals; the decimal literals `0.3`, `0.05`, `1.5`, … are written as the
  rationals `3/10`, `1/20`, `3/2`, …).
* A JS `Map` is an insertion-ordered association list `List (String × ℚ)`:
  `setEntry` updates an existing key in place (keeping its position, as
  `Map.set` does) or appends a fresh key; `getScore` models
  `map.get(k) || 0`.
* A JS `Set` is an insertion-ordered duplicate-free list: `addToSet` models
  `Set.add` (no-op when present, else append), and deleting the oldest member
  (`Array.from(set)[0]`) is `List.tail`.
* `Array.prototype.sort` with comparator `(a, b) => b.score - a.score` is a
  stable descending sort (ES2019 guarantees stability); a stable sort is the
  unique output that is sorted descending with ties kept in original order,
  which is exactly `List.insertionSort` with the non-strict relation
  `b.2 ≤ a.2`.
* Optional JS fields are `Option`; JS truthiness of a number is `≠ 0`, of a
  string is `≠ ""`, which is spelled out at each use site.
* `timestamp`/`lastUpdated` fields (wall-clock reads via `Date.now()`) are
  omitted: no claim and no branch of the engine logic reads them.
* `moodPreferences` is kept in the profile for interface fidelity although the
  source never writes or reads it after initialization.
-/

namespace HydeEngine

/-- The `action` union of the `ListeningEvent` interface
(`'play' | 'skip' | 'replay' | 'like' | 'full_listen'`). -/
inductive EventAction where
  | play
  | skip
  | replay
  | like
  | full_listen
  deriving DecidableEq

/-- The `ListeningEvent` interface (usePlayer.tsx lines 18–26); the unused
`timestamp` field is omitted. -/
structure ListeningEvent where
  songId : String
  artist : String
  genre : Option String := none
  action : EventAction
  listenDuration : Option ℚ := none
  songDuration : Option ℚ := none
  deriving DecidableEq

/-- The fields of the `Song` type that the recommendation engine reads
(`id`, `artist`, `genre`, `views`; `title` is carried along since songs are
compared as whole values). -/
structure Song where
  id : String
  title : String := ""
  artist : String
  genre : Option String := none
  views : Option ℕ := none
  deriving DecidableEq

/-- The `timeOfDay` union of `SessionContext`. -/
inductive TimeOfDay where
  | morning
  | afternoon
  | evening
  | night
  deriving DecidableEq

/-- The `SessionContext` interface (usePlayer.tsx lines 39–48). -/
structure SessionContext where
  currentSong : Song
  queue : List Song := []
  recentQueue : List Song := []
  timeOfDay : TimeOfDay := TimeOfDay.morning
  skipCount : ℕ := 0
  repeatCount : ℕ := 0
  isShuffled : Bool := false
  sessionMood : Option String := none
  deriving DecidableEq

/-- The `UserTasteProfile` interface (usePlayer.tsx lines 28–37); the unused
`lastUpdated` timestamp is omitted. -/
structure UserTasteProfile where
  artistPreferences : List (String × ℚ)
  genrePreferences : List (String × ℚ)
  moodPreferences : List (String × ℚ)
  recentlyPlayed : List String
  recentlySkipped : List String
  favoriteArtists : List String
  discoveryOpenness : ℚ
  deriving DecidableEq

/-- The engine state: the private `userProfile` together with the private
`listeningHistory` array. -/
structure MusicRecommendationEngine where
  userProfile : UserTasteProfile
  listeningHistory : List ListeningEvent
  deriving DecidableEq

/-- `HISTORY_WINDOW = 50`. -/
def HISTORY_WINDOW : ℕ := 50

/-- `RECENT_PLAYED_WINDOW = 20`. -/
def RECENT_PLAYED_WINDOW : ℕ := 20

/-- `map.get(k) || 0`: the stored value of `k`, or `0` when the key is absent
(a stored `0` is falsy in JS and also yields `0`, so the two coincide). -/
def getScore (m : List (String × ℚ)) (k : String) : ℚ :=
  match m with
  | [] => 0
  | (k', v) :: rest => if k' = k then v else getScore rest k

/-- `map.set(k, v)` on an insertion-ordered map: replace the value of an
existing key in place, else append the new key at the end. -/
def setEntry (m : List (String × ℚ)) (k : String) (v : ℚ) : List (String × ℚ) :=
  match m with
  | [] => [(k, v)]
  | (k', v') :: rest => if k' = k then (k, v) :: rest else (k', v') :: setEntry rest k v

/-- `set.add(x)` on an insertion-ordered set. -/
def addToSet (s : List String) (x : String) : List String :=
  if x ∈ s then s else s ++ [x]

/-- `array.slice(-n)`: the last `n` elements (the whole list when it is
shorter than `n`). -/
def lastN (n : ℕ) (l : List α) : List α := l.drop (l.length - n)

/-- The profile produced by `initializeProfile()` (usePlayer.tsx lines 73–84):
empty maps and sets, `discoveryOpenness = 0.3`. -/
def emptyProfile : UserTasteProfile :=
  { artistPreferences := []
    genrePreferences := []
    moodPreferences := []
    recentlyPlayed := []
    recentlySkipped := []
    favoriteArtists := []
    discoveryOpenness := 3/10 }

/-- A freshly constructed engine: `initializeProfile()` plus an empty
`listeningHistory`. -/
def newEngine : MusicRecommendationEngine :=
  { userProfile := emptyProfile, listeningHistory := [] }

/-- The completion ratio of `updateTasteProfile` (usePlayer.tsx lines 99–101):
`listenDuration && songDuration ? listenDuration / songDuration : 1`.
JS truthiness makes the division happen exactly when both fields are present
and both are non-zero. -/
def completionRatio (listenDuration songDuration : Option ℚ) : ℚ :=
  match listenDuration, songDuration with
  | some l, some d => if l ≠ 0 ∧ d ≠ 0 then l / d else 1
  | _, _ => 1

/-- Descending order on score-carrying entries (`(a, b) => b[1] - a[1]`). -/
def entryGE (a b : String × ℚ) : Prop := b.2 ≤ a.2

instance : DecidableRel entryGE :=
  fun a b => inferInstanceAs (Decidable (b.2 ≤ a.2))

instance : IsTotal (String × ℚ) entryGE :=
  ⟨fun a b => (le_total b.2 a.2).imp id id⟩

instance : IsTrans (String × ℚ) entryGE :=
  ⟨fun _ _ _ h1 h2 => le_trans h2 h1⟩

/-- The `favoriteArtists` recomputation (usePlayer.tsx lines 138–141):
sort the affinity entries descending by score (stable), keep the first ten,
project to the artist names. -/
def computeFavorites (m : List (String × ℚ)) : List String :=
  ((List.insertionSort entryGE m).take 10).map Prod.fst

/-- `listeningHistory.slice(-10).filter(e => e.action === 'skip').length`,
as computed both in `updateTasteProfile` and in `getRecommendationStrategy`. -/
def recentSkipCount (history : List ListeningEvent) : ℕ :=
  ((lastN 10 history).filter (fun ev => decide (ev.action = EventAction.skip))).length

/-- `updateTasteProfile` (usePlayer.tsx lines 96–154). The listening history
passed in is the one already updated by `recordListeningEvent`, exactly as in
the source where the push happens before this method is called. -/
def updateTasteProfile (e : MusicRecommendationEngine) (event : ListeningEvent) :
    MusicRecommendationEngine :=
  let p := e.userProfile
  let ratio := completionRatio event.listenDuration event.songDuration
  let currentArtistScore := getScore p.artistPreferences event.artist
  let artistPrefs :=
    match event.action with
    | .full_listen => setEntry p.artistPreferences event.artist (currentArtistScore + 3)
    | .like => setEntry p.artistPreferences event.artist (currentArtistScore + 5)
    | .replay => setEntry p.artistPreferences event.artist (currentArtistScore + 4)
    | .skip =>
        let penalty : ℚ := if ratio < 3/10 then -2 else -(1/2)
        setEntry p.artistPreferences event.artist (max 0 (currentArtistScore + penalty))
    | .play => setEntry p.artistPreferences event.artist (currentArtistScore + ratio * (3/2))
  let recentlySkipped :=
    match event.action with
    | .skip => addToSet p.recentlySkipped event.songId
    | _ => p.recentlySkipped
  let genrePrefs :=
    match event.genre with
    | some g =>
        if g = "" then p.genrePreferences
        else
          let currentGenreScore := getScore p.genrePreferences g
          let genreBoost : ℚ := if event.action = .skip then -1 else ratio * 2
          setEntry p.genrePreferences g (max 0 (currentGenreScore + genreBoost))
    | none => p.genrePreferences
  let rp := addToSet p.recentlyPlayed event.songId
  let recentlyPlayed := if RECENT_PLAYED_WINDOW < rp.length then rp.tail else rp
  let recentSkips := recentSkipCount e.listeningHistory
  let discoveryOpenness :=
    if 5 < recentSkips then max (1/10) (p.discoveryOpenness - 1/20)
    else if recentSkips < 2 then min (1/2) (p.discoveryOpenness + 1/20)
    else p.discoveryOpenness
  { e with
    userProfile :=
      { p with
        artistPreferences := artistPrefs
        genrePreferences := genrePrefs
        recentlySkipped := recentlySkipped
        recentlyPlayed := recentlyPlayed
        favoriteArtists := computeFavorites artistPrefs
        discoveryOpenness := discoveryOpenness } }

/-- `recordListeningEvent` (usePlayer.tsx lines 86–94): push the event,
evict the oldest history entry beyond `HISTORY_WINDOW`, then update the
taste profile. -/
def recordListeningEvent (e : MusicRecommendationEngine) (event : ListeningEvent) :
    MusicRecommendationEngine :=
  let hist := e.listeningHistory ++ [event]
  let hist := if HISTORY_WINDOW < hist.length then hist.tail else hist
  updateTasteProfile { e with listeningHistory := hist } event

/-- The engine reached from a fresh engine by recording a sequence of events
in order. -/
def runEvents (events : List ListeningEvent) : MusicRecommendationEngine :=
  events.foldl recordListeningEvent newEngine

/-- `Math.max(...map.values(), 1)`. -/
def maxWith1 (m : List (String × ℚ)) : ℚ :=
  m.foldl (fun acc p => max acc p.2) 1

/-- `calculateArtistSimilarity` (usePlayer.tsx lines 177–193). -/
def calculateArtistSimilarity (p : UserTasteProfile) (candidate : Song)
    (context : SessionContext) : ℚ :=
  if candidate.artist = context.currentSong.artist then 80
  else
    let artistScore := getScore p.artistPreferences candidate.artist
    if candidate.artist ∈ p.favoriteArtists then 90 + artistScore
    else (artistScore / maxWith1 p.artistPreferences) * 70

/-- `calculateGenreSimilarity` (usePlayer.tsx lines 195–202); `!candidate.genre`
is true for a missing genre and for the empty string. -/
def calculateGenreSimilarity (p : UserTasteProfile) (candidate : Song) : ℚ :=
  match candidate.genre with
  | none => 50
  | some g =>
      if g = "" then 50
      else (getScore p.genrePreferences g / maxWith1 p.genrePreferences) * 100

/-- `calculateMoodCompatibility` (usePlayer.tsx lines 204–214). -/
def calculateMoodCompatibility (p : UserTasteProfile) (candidate : Song)
    (context : SessionContext) : ℚ :=
  if 3 < context.skipCount then
    if candidate.artist ∈ p.favoriteArtists then 90 else 40
  else if 0 < context.repeatCount then
    if candidate.artist = context.currentSong.artist then 95 else 60
  else 70

/-- `calculateNoveltyBonus` (usePlayer.tsx lines 216–228). -/
def calculateNoveltyBonus (p : UserTasteProfile) (candidate : Song) : ℚ :=
  let artistScore := getScore p.artistPreferences candidate.artist
  if artistScore = 0 then p.discoveryOpenness * 100
  else if artistScore < 3 then p.discoveryOpenness * 50
  else 10

/-- `calculateRepetitionPenalty` (usePlayer.tsx lines 230–245): the
`recentlyPlayed` membership test comes first, then `recentlySkipped`, then the
recent-queue artist check on `recentQueue.slice(-3)`. -/
def calculateRepetitionPenalty (p : UserTasteProfile) (candidate : Song)
    (context : SessionContext) : ℚ :=
  if candidate.id ∈ p.recentlyPlayed then -80
  else if candidate.id ∈ p.recentlySkipped then -100
  else
    let recentArtists := (lastN 3 context.recentQueue).map Song.artist
    if candidate.artist ∈ recentArtists then -40 else 0

/-- `calculatePopularitySignal` (usePlayer.tsx lines 247–254);
`candidate.views || 0` is `getD 0`. -/
def calculatePopularitySignal (candidate : Song) : ℚ :=
  let views := candidate.views.getD 0
  if 10000000 < views then 20
  else if 1000000 < views then 15
  else if 100000 < views then 10
  else 5

/-- `scoreSong` (usePlayer.tsx lines 156–175): the fixed weighted sum of the
six sub-scores with weights 0.30, 0.20, 0.25, 0.10, 0.10, 0.05. -/
def scoreSong (p : UserTasteProfile) (candidate : Song) (context : SessionContext) : ℚ :=
  calculateArtistSimilarity p candidate context * (3/10) +
  calculateGenreSimilarity p candidate * (1/5) +
  calculateMoodCompatibility p candidate context * (1/4) +
  calculateNoveltyBonus p candidate * (1/10) +
  calculateRepetitionPenalty p candidate context * (1/10) +
  calculatePopularitySignal candidate * (1/20)

/-- Descending order on scored candidates (`(a, b) => b.score - a.score`). -/
def scoredGE (a b : Song × ℚ) : Prop := b.2 ≤ a.2

instance : DecidableRel scoredGE :=
  fun a b => inferInstanceAs (Decidable (b.2 ≤ a.2))

instance : IsTotal (Song × ℚ) scoredGE :=
  ⟨fun a b => (le_total b.2 a.2).imp id id⟩

instance : IsTrans (Song × ℚ) scoredGE :=
  ⟨fun _ _ _ h1 h2 => le_trans h2 h1⟩

/-- The familiar-bucket test of `recommendNextSongs`:
`favoriteArtists.includes(artist) || (artistPreferences.get(artist) || 0) > 3`. -/
def familiarTest (p : UserTasteProfile) (s : Song × ℚ) : Bool :=
  decide (s.1.artist ∈ p.favoriteArtists) ||
  decide (3 < getScore p.artistPreferences s.1.artist)

/-- The discovery-bucket test of `recommendNextSongs`:
`!favoriteArtists.includes(artist) && (artistPreferences.get(artist) || 0) <= 3`. -/
def discoveryTest (p : UserTasteProfile) (s : Song × ℚ) : Bool :=
  !(decide (s.1.artist ∈ p.favoriteArtists)) &&
  decide (getScore p.artistPreferences s.1.artist ≤ 3)

/-- `recommendNextSongs` (usePlayer.tsx lines 256–301): score all candidates,
sort descending (stable), split into familiar/discovery buckets, take
`ceil(count * (1 - discoveryOpenness))` familiar picks and the remaining quota
of discovery picks, then backfill from the full sorted list skipping songs
already selected. JS `results.includes` on song objects is modelled by
structural membership. -/
def recommendNextSongs (e : MusicRecommendationEngine) (candidates : List Song)
    (context : SessionContext) (count : ℕ) : List Song :=
  let p := e.userProfile
  let scored := candidates.map (fun c => (c, scoreSong p c context))
  let sorted := List.insertionSort scoredGE scored
  let familiar := sorted.filter (familiarTest p)
  let discovery := sorted.filter (discoveryTest p)
  let targetFamiliar : ℤ := ⌈(count : ℚ) * (1 - p.discoveryOpenness)⌉
  let targetDiscovery : ℤ := (count : ℤ) - targetFamiliar
  let results := (familiar.take targetFamiliar.toNat).map Prod.fst ++
    (discovery.take targetDiscovery.toNat).map Prod.fst
  if results.length < count then
    results ++
      ((sorted.filter (fun s => !(decide (s.1 ∈ results)))).take
        (count - results.length)).map Prod.fst
  else results

/-- `getRecommendationStrategy` (usePlayer.tsx lines 303–314): the skip rate is
the number of `skip` actions among the last ten history entries divided by the
constant 10 (not by the number of entries actually present). -/
def getRecommendationStrategy (e : MusicRecommendationEngine) : String :=
  let skipRate : ℚ := (recentSkipCount e.listeningHistory : ℕ) / 10
  if 1/2 < skipRate then "focus_mode"
  else if 2/5 < e.userProfile.discoveryOpenness then "discovery_mode"
  else "balanced"

/-- JSON values, the image of `JSON.parse` (the textual layer of
`JSON.stringify`/`JSON.parse` — lossless for object trees — is abstracted
away; numbers are the engine's rationals). -/
inductive Json where
  | null
  | bool (b : Bool)
  | num (q : ℚ)
  | str (s : String)
  | arr (items : List Json)
  | obj (fields : List (String × Json))

/-- The name under which an action is serialized. -/
def actionName : EventAction → String
  | .play => "play"
  | .skip => "skip"
  | .replay => "replay"
  | .like => "like"
  | .full_listen => "full_listen"

/-- One `[artist, score]` entry of `Array.from(map.entries())`. -/
def entryToJson (p : String × ℚ) : Json :=
  .arr [.str p.1, .num p.2]

/-- Serialization of a listening event inside the export blob
(`JSON.stringify` drops fields holding `undefined`). -/
def eventToJson (ev : ListeningEvent) : Json :=
  .obj ([("songId", Json.str ev.songId), ("artist", Json.str ev.artist)] ++
    (match ev.genre with | some g => [("genre", Json.str g)] | none => []) ++
    [("action", Json.str (actionName ev.action))] ++
    (match ev.listenDuration with
     | some l => [("listenDuration", Json.num l)] | none => []) ++
    (match ev.songDuration with
     | some d => [("songDuration", Json.num d)] | none => []))

/-- `exportProfile` (usePlayer.tsx lines 325–335): the serialized blob holding
the two affinity maps as entry arrays, the favorite artists, the discovery
openness, and the last twenty history events. -/
def exportProfile (e : MusicRecommendationEngine) : Json :=
  .obj
    [("profile", .obj
      [("artistPreferences", .arr (e.userProfile.artistPreferences.map entryToJson)),
       ("genrePreferences", .arr (e.userProfile.genrePreferences.map entryToJson)),
       ("favoriteArtists", .arr (e.userProfile.favoriteArtists.map Json.str)),
       ("discoveryOpenness", .num e.userProfile.discoveryOpenness)]),
     ("history", .arr ((lastN 20 e.listeningHistory).map eventToJson))]

/-- Outcome of evaluating a JS property-access expression: a JSON value,
`undefined`, or a thrown `TypeError`. -/
inductive JsOut where
  | val (j : Json)
  | undefined
  | thrown

/-- First-match field lookup in a JSON object. -/
def lookupField : List (String × Json) → String → Option Json
  | [], _ => none
  | (k', v) :: rest, k => if k' = k then some v else lookupField rest k

/-- `x.k` in JS: property access on `null`/`undefined` throws; on an object it
yields the field or `undefined`; on any other value it yields `undefined`. -/
def jsField : JsOut → String → JsOut
  | .thrown, _ => .thrown
  | .undefined, _ => .thrown
  | .val Json.null, _ => .thrown
  | .val (Json.obj fields), k =>
      match lookupField fields k with
      | some v => .val v
      | none => .undefined
  | .val _, _ => .undefined

/-- One `[key, value]` entry consumed by `new Map(...)`, narrowed to the
`Map<string, number>` shape of the profile maps (JS ignores extra array
elements beyond the first two; an entry not fitting the string-to-number
profile shape is treated as a failing step). -/
def entryOfJson : Json → Except Unit (String × ℚ)
  | .arr (Json.str k :: Json.num v :: _) => .ok (k, v)
  | _ => .error ()

/-- Sequential consumption of an entry array, as the `Map` constructor
iterates it: the first non-conforming entry aborts the rest. -/
def entriesOfJson : List Json → Except Unit (List (String × ℚ))
  | [] => .ok []
  | j :: rest =>
    match entryOfJson j with
    | .error e => .error e
    | .ok p =>
      match entriesOfJson rest with
      | .error e => .error e
      | .ok ps => .ok (p :: ps)

/-- `new Map(x)`: `undefined` gives an empty map, an array of entries is
consumed entry by entry, anything else throws. -/
def toEntries : JsOut → Except Unit (List (String × ℚ))
  | .undefined => .ok []
  | .val (Json.arr items) => entriesOfJson items
  | _ => .error ()

/-- A JSON string, used when decoding `favoriteArtists`. -/
def strOfJson : Json → Except Unit String
  | .str s => .ok s
  | _ => .error ()

/-- Sequential decoding of a string array. -/
def strsOfJson : List Json → Except Unit (List String)
  | [] => .ok []
  | j :: rest =>
    match strOfJson j with
    | .error e => .error e
    | .ok s =>
      match strsOfJson rest with
      | .error e => .error e
      | .ok ss => .ok (s :: ss)

/-- Decoding the `favoriteArtists` array (a non-array is treated as a
failing step, matching the `string[]` type of the field). -/
def toStrList : JsOut → Except Unit (List String)
  | .val (Json.arr items) => strsOfJson items
  | _ => .error ()

/-- Decoding the `discoveryOpenness` number (a non-number is treated as a
failing step, matching the `number` type of the field). -/
def toNum : JsOut → Except Unit ℚ
  | .val (Json.num q) => .ok q
  | _ => .error ()

/-- The `Map` constructor over decoded entries: later entries with the same
key overwrite the earlier value but keep the first-insertion position. -/
def buildMap (entries : List (String × ℚ)) : List (String × ℚ) :=
  entries.foldl (fun m p => setEntry m p.1 p.2) []

/-- `importProfile` (usePlayer.tsx lines 337–347). The argument is the result
of `JSON.parse` (`none` when parsing itself threw). The four assignments run
in source order inside the `try`; the first step that throws aborts the rest,
the `catch` swallows the error, and the assignments already performed are
kept — there is no rollback. -/
def importProfile (e : MusicRecommendationEngine) (input : Option Json) :
    MusicRecommendationEngine :=
  match input with
  | none => e
  | some j =>
    let profile := jsField (JsOut.val j) "profile"
    match toEntries (jsField profile "artistPreferences") with
    | .error _ => e
    | .ok ap =>
      let e1 := { e with userProfile := { e.userProfile with artistPreferences := buildMap ap } }
      match toEntries (jsField profile "genrePreferences") with
      | .error _ => e1
      | .ok gp =>
        let e2 := { e1 with userProfile := { e1.userProfile with genrePreferences := buildMap gp } }
        match toStrList (jsField profile "favoriteArtists") with
        | .error _ => e2
        | .ok fa =>
          let e3 := { e2 with userProfile := { e2.userProfile with favoriteArtists := fa } }
          match toNum (jsField profile "discoveryOpenness") with
          | .error _ => e3
          | .ok d => { e3 with userProfile := { e3.userProfile with discoveryOpenness := d } }

/-- `resetProfile` (usePlayer.tsx lines 320–323). -/
def resetProfile (_e : MusicRecommendationEngine) : MusicRecommendationEngine :=
  newEngine

/-- Well-formed durations: when a duration field of an event is present it is
nonnegative (as is the case for the wall-clock positions the player feeds in). -/
def durOk (ev : ListeningEvent) : Prop :=
  (∀ x : ℚ, ev.listenDuration = some x → 0 ≤ x) ∧
  (∀ x : ℚ, ev.songDuration = some x → 0 ≤ x)

/-! ## Lemmas about the map and set helpers -/

theorem getScore_nonneg {m : List (String × ℚ)} (h : ∀ p ∈ m, 0 ≤ p.2) (k : String) :
    0 ≤ getScore m k := by
  induction m with
  | nil => simp [getScore]
  | cons hd tl ih =>
    obtain ⟨k', v'⟩ := hd
    simp only [getScore]
    split
    · exact h (k', v') (by simp)
    · exact ih fun p hp => h p (by simp [hp])

theorem mem_setEntry {m : List (String × ℚ)} {k : String} {v : ℚ} {p : String × ℚ}
    (hp : p ∈ setEntry m k v) : p = (k, v) ∨ p ∈ m := by
  induction m with
  | nil => simpa [setEntry] using hp
  | cons hd tl ih =>
    obtain ⟨k', v'⟩ := hd
    simp only [setEntry] at hp
    split at hp
    · rcases List.mem_cons.mp hp with h | h
      · exact Or.inl h
      · exact Or.inr (List.mem_cons_of_mem _ h)
    · rcases List.mem_cons.mp hp with h | h
      · exact Or.inr (h ▸ List.mem_cons_self _ _)
      · rcases ih h with h' | h'
        · exact Or.inl h'
        · exact Or.inr (List.mem_cons_of_mem _ h')

theorem setEntry_map_fst (m : List (String × ℚ)) (k : String) (v : ℚ) :
    (setEntry m k v).map Prod.fst =
      if k ∈ m.map Prod.fst then m.map Prod.fst else m.map Prod.fst ++ [k] := by
  induction m with
  | nil => simp [setEntry]
  | cons hd tl ih =>
    obtain ⟨k', v'⟩ := hd
    simp only [setEntry]
    by_cases hk : k' = k
    · subst hk
      simp
    · simp only [if_neg hk, List.map_cons, ih]
      by_cases hmem : k ∈ tl.map Prod.fst
      · simp [hmem, Ne.symm hk]
      · simp [hmem, Ne.symm hk]

theorem setEntry_keys_nodup {m : List (String × ℚ)} (h : (m.map Prod.fst).Nodup)
    (k : String) (v : ℚ) : ((setEntry m k v).map Prod.fst).Nodup := by
  rw [setEntry_map_fst]
  split
  · exact h
  · next hk => simp [List.nodup_append, h, hk]

theorem getScore_eq_of_mem {m : List (String × ℚ)} (hnd : (m.map Prod.fst).Nodup)
    {k : String} {v : ℚ} (hm : (k, v) ∈ m) : getScore m k = v := by
  induction m with
  | nil => simp at hm
  | cons hd tl ih =>
    obtain ⟨k', v'⟩ := hd
    simp only [List.map_cons, List.nodup_cons] at hnd
    simp only [getScore]
    rcases List.mem_cons.mp hm with h | h
    · obtain ⟨rfl, rfl⟩ := Prod.mk.injEq .. ▸ h.symm
      simp
    · have hkk : k' ≠ k := by
        rintro rfl
        exact hnd.1 (List.mem_map.mpr ⟨(k', v), h, rfl⟩)
      rw [if_neg hkk]
      exact ih hnd.2 h

theorem setEntry_of_not_mem {m : List (String × ℚ)} {k : String}
    (h : k ∉ m.map Prod.fst) (v : ℚ) : setEntry m k v = m ++ [(k, v)] := by
  induction m with
  | nil => simp [setEntry]
  | cons hd tl ih =>
    obtain ⟨k', v'⟩ := hd
    simp only [List.map_cons, List.mem_cons] at h
    push_neg at h
    simp only [setEntry, if_neg (Ne.symm h.1), List.cons_append, List.cons.injEq, true_and]
    exact ih h.2

theorem foldl_setEntry_fresh :
    ∀ (l acc : List (String × ℚ)), (l.map Prod.fst).Nodup →
      (∀ k ∈ l.map Prod.fst, k ∉ acc.map Prod.fst) →
      l.foldl (fun m p => setEntry m p.1 p.2) acc = acc ++ l
  | [], acc, _, _ => by simp
  | (k, v) :: rest, acc, hnd, hfresh => by
    simp only [List.map_cons, List.nodup_cons] at hnd
    simp only [List.foldl_cons]
    rw [setEntry_of_not_mem (hfresh k (by simp)) v,
      foldl_setEntry_fresh rest (acc ++ [(k, v)]) hnd.2 ?_]
    · simp
    · intro k' hk'
      simp only [List.map_append, List.mem_append, List.map_cons, List.map_nil]
      rintro (h | h)
      · exact hfresh k' (by simp [hk']) h
      · simp only [List.mem_singleton] at h
        exact hnd.1 (h ▸ hk')

theorem buildMap_self {m : List (String × ℚ)} (h : (m.map Prod.fst).Nodup) :
    buildMap m = m := by
  simpa [buildMap] using foldl_setEntry_fresh m [] h (by simp)

theorem setEntry_nonneg {m : List (String × ℚ)} (hm : ∀ p ∈ m, 0 ≤ p.2)
    {k : String} {v : ℚ} (hv : 0 ≤ v) : ∀ p ∈ setEntry m k v, 0 ≤ p.2 := by
  intro p hp
  rcases mem_setEntry hp with rfl | h
  · exact hv
  · exact hm p h

theorem completionRatio_nonneg {ev : ListeningEvent} (h : durOk ev) :
    0 ≤ completionRatio ev.listenDuration ev.songDuration := by
  cases hl : ev.listenDuration with
  | none => simp [completionRatio]
  | some l =>
    cases hd : ev.songDuration with
    | none => simp [completionRatio]
    | some d =>
      simp only [completionRatio]
      split
      · exact div_nonneg (h.1 l hl) (h.2 d hd)
      · norm_num

/-- Invariant preservation along a recorded event sequence. -/
theorem foldl_record_invariant {P : MusicRecommendationEngine → Prop}
    {Q : ListeningEvent → Prop}
    (step : ∀ e ev, Q ev → P e → P (recordListeningEvent e ev)) :
    ∀ (events : List ListeningEvent) (e : MusicRecommendationEngine),
      (∀ ev ∈ events, Q ev) → P e → P (events.foldl recordListeningEvent e)
  | [], _, _, hP => hP
  | ev :: rest, e, hQ, hP =>
    foldl_record_invariant step rest _ (fun x hx => hQ x (List.mem_cons_of_mem _ hx))
      (step e ev (hQ ev (List.mem_cons_self _ _)) hP)

/-! ## Field-level characterizations of `recordListeningEvent` -/

theorem record_listeningHistory (e : MusicRecommendationEngine) (ev : ListeningEvent) :
    (recordListeningEvent e ev).listeningHistory =
      if HISTORY_WINDOW < (e.listeningHistory ++ [ev]).length
      then (e.listeningHistory ++ [ev]).tail else e.listeningHistory ++ [ev] := rfl

theorem record_artistPreferences (e : MusicRecommendationEngine) (ev : ListeningEvent) :
    (recordListeningEvent e ev).userProfile.artistPreferences =
      match ev.action with
      | .full_listen => setEntry e.userProfile.artistPreferences ev.artist
          (getScore e.userProfile.artistPreferences ev.artist + 3)
      | .like => setEntry e.userProfile.artistPreferences ev.artist
          (getScore e.userProfile.artistPreferences ev.artist + 5)
      | .replay => setEntry e.userProfile.artistPreferences ev.artist
          (getScore e.userProfile.artistPreferences ev.artist + 4)
      | .skip => setEntry e.userProfile.artistPreferences ev.artist
          (max 0 (getScore e.userProfile.artistPreferences ev.artist +
            if completionRatio ev.listenDuration ev.songDuration < 3/10 then -2 else -(1/2)))
      | .play => setEntry e.userProfile.artistPreferences ev.artist
          (getScore e.userProfile.artistPreferences ev.artist +
            completionRatio ev.listenDuration ev.songDuration * (3/2)) := rfl

theorem record_genrePreferences (e : MusicRecommendationEngine) (ev : ListeningEvent) :
    (recordListeningEvent e ev).userProfile.genrePreferences =
      match ev.genre with
      | some g =>
          if g = "" then e.userProfile.genrePreferences
          else
            setEntry e.userProfile.genrePreferences g
              (max 0 (getScore e.userProfile.genrePreferences g +
                if ev.action = .skip then -1
                else completionRatio ev.listenDuration ev.songDuration * 2))
      | none => e.userProfile.genrePreferences := rfl

theorem record_favoriteArtists (e : MusicRecommendationEngine) (ev : ListeningEvent) :
    (recordListeningEvent e ev).userProfile.favoriteArtists =
      computeFavorites (recordListeningEvent e ev).userProfile.artistPreferences := rfl

theorem record_discoveryOpenness (e : MusicRecommendationEngine) (ev : ListeningEvent) :
    (recordListeningEvent e ev).userProfile.discoveryOpenness =
      if 5 < recentSkipCount (recordListeningEvent e ev).listeningHistory
      then max (1/10) (e.userProfile.discoveryOpenness - 1/20)
      else if recentSkipCount (recordListeningEvent e ev).listeningHistory < 2
      then min (1/2) (e.userProfile.discoveryOpenness + 1/20)
      else e.userProfile.discoveryOpenness := rfl

/-! ## Reachable-state invariants -/

theorem runEvents_affinity_nonneg_of_durOk (events : List ListeningEvent)
    (h : ∀ ev ∈ events, durOk ev) :
    (∀ p ∈ (runEvents events).userProfile.artistPreferences, 0 ≤ p.2) ∧
    (∀ p ∈ (runEvents events).userProfile.genrePreferences, 0 ≤ p.2) := by
  unfold runEvents
  refine foldl_record_invariant
    (P := fun e => (∀ p ∈ e.userProfile.artistPreferences, 0 ≤ p.2) ∧
      (∀ p ∈ e.userProfile.genrePreferences, 0 ≤ p.2))
    (Q := durOk) ?_ events newEngine h ?_
  · intro e ev hQ hP
    have hr : 0 ≤ completionRatio ev.listenDuration ev.songDuration :=
      completionRatio_nonneg hQ
    have hcur : 0 ≤ getScore e.userProfile.artistPreferences ev.artist :=
      getScore_nonneg hP.1 ev.artist
    constructor
    · rw [record_artistPreferences]
      cases ev.action
      · exact setEntry_nonneg hP.1 (add_nonneg hcur (mul_nonneg hr (by norm_num)))
      · exact setEntry_nonneg hP.1 (le_max_left 0 _)
      · exact setEntry_nonneg hP.1 (by linarith)
      · exact setEntry_nonneg hP.1 (by linarith)
      · exact setEntry_nonneg hP.1 (by linarith)
    · rw [record_genrePreferences]
      cases ev.genre with
      | none => exact hP.2
      | some g =>
        dsimp only
        split_ifs
        · exact hP.2
        · exact setEntry_nonneg hP.2 (le_max_left 0 _)
        · exact setEntry_nonneg hP.2 (le_max_left 0 _)
  · exact ⟨by simp [newEngine, emptyProfile], by simp [newEngine, emptyProfile]⟩

theorem runEvents_discoveryOpenness_bounds (events : List ListeningEvent) :
    1/10 ≤ (runEvents events).userProfile.discoveryOpenness ∧
      (runEvents events).userProfile.discoveryOpenness ≤ 1/2 := by
  unfold runEvents
  refine foldl_record_invariant
    (P := fun e => 1/10 ≤ e.userProfile.discoveryOpenness ∧
      e.userProfile.discoveryOpenness ≤ 1/2)
    (Q := fun _ => True) ?_ events newEngine (fun _ _ => trivial) ?_
  · intro e ev _ hP
    rw [record_discoveryOpenness]
    split
    · exact ⟨le_max_left _ _, max_le (by norm_num) (by linarith [hP.2])⟩
    · split
      · exact ⟨le_min (by norm_num) (by linarith [hP.1]), min_le_left _ _⟩
      · exact hP
  · constructor <;> norm_num [newEngine, emptyProfile]

/-! ## Claim C2: nonnegativity of stored affinities -/

/-- A `play` event carrying a negative listen duration (the `ListeningEvent`
type places no sign restriction on durations). -/
def negDurationEvent : ListeningEvent :=
  { songId := "t1", artist := "a", action := .play,
    listenDuration := some (-3), songDuration := some 1 }

/-- **C2, counterexample.** The claim fails as stated: a single `play` event
with `listenDuration = -3`, `songDuration = 1` is processed with completion
ratio `-3`, and the unclamped `play` branch stores the negative artist
affinity `-9/2`. -/
theorem affinity_nonneg_counterexample :
    (recordListeningEvent newEngine negDurationEvent).userProfile.artistPreferences
      = [("a", -(9/2))] ∧ (-(9/2) : ℚ) < 0 := by
  refine ⟨?_, by norm_num⟩
  norm_num [recordListeningEvent, updateTasteProfile, newEngine, emptyProfile,
    negDurationEvent, completionRatio, getScore, setEntry, HISTORY_WINDOW]

/-- **C2 (amended).** For every sequence of events whose provided durations
are nonnegative, after every event every stored artist affinity and every
stored genre affinity is `≥ 0` (the `skip` and genre updates are clamped by
`Math.max(0, ·)`, and all other updates add nonnegative amounts). Every state
after any such sequence is covered since every prefix of such a sequence again
satisfies the hypothesis. -/
theorem runEvents_affinity_nonneg (events : List ListeningEvent)
    (h : ∀ ev ∈ events, durOk ev) :
    (∀ p ∈ (runEvents events).userProfile.artistPreferences, 0 ≤ p.2) ∧
    (∀ p ∈ (runEvents events).userProfile.genrePreferences, 0 ≤ p.2) :=
  runEvents_affinity_nonneg_of_durOk events h

/-- An ordinary `like` event with no duration fields. -/
def likeEventC2 : ListeningEvent :=
  { songId := "s1", artist := "a", genre := some "pop", action := .like }

/-- An ordinary `skip` event with no duration fields. -/
def skipEventC2 : ListeningEvent :=
  { songId := "s2", artist := "b", genre := some "rock", action := .skip }

/-- Witness for `runEvents_affinity_nonneg` at a concrete two-event run. -/
theorem runEvents_affinity_nonneg_witness :
    (∀ ev ∈ [likeEventC2, skipEventC2], durOk ev) ∧
    (∀ p ∈ (runEvents [likeEventC2, skipEventC2]).userProfile.artistPreferences, 0 ≤ p.2) ∧
    (∀ p ∈ (runEvents [likeEventC2, skipEventC2]).userProfile.genrePreferences, 0 ≤ p.2) := by
  have hdur : ∀ ev ∈ [likeEventC2, skipEventC2], durOk ev := by
    intro ev hev
    rcases List.mem_cons.mp hev with rfl | hev
    · exact ⟨fun x hx => by simp [likeEventC2] at hx,
        fun x hx => by simp [likeEventC2] at hx⟩
    · rcases List.mem_cons.mp hev with rfl | hev
      · exact ⟨fun x hx => by simp [skipEventC2] at hx,
          fun x hx => by simp [skipEventC2] at hx⟩
      · simp at hev
  exact ⟨hdur, (runEvents_affinity_nonneg [likeEventC2, skipEventC2] hdur).1,
    (runEvents_affinity_nonneg [likeEventC2, skipEventC2] hdur).2⟩

/-! ## Claim C4: the completion ratio -/

/-- A `play` event with a zero listen duration and a provided non-zero
track duration. -/
def zeroListenEvent : ListeningEvent :=
  { songId := "t1", artist := "a", action := .play,
    listenDuration := some 0, songDuration := some 100 }

/-- **C4, counterexample.** An event with `listenDuration = 0` and provided
non-zero `songDuration = 100` is processed with completion ratio `1`
(`0` is falsy in JS), not `0` as the claim states: the resulting `play` credit
is `1 * 1.5 = 3/2`, not `0`. -/
theorem completionRatio_zero_counterexample :
    completionRatio (some 0) (some 100) = 1 ∧ (1 : ℚ) ≠ 0 ∧
    (recordListeningEvent newEngine zeroListenEvent).userProfile.artistPreferences
      = [("a", 3/2)] := by
  refine ⟨by norm_num [completionRatio], by norm_num, ?_⟩
  norm_num [recordListeningEvent, updateTasteProfile, newEngine, emptyProfile,
    zeroListenEvent, completionRatio, getScore, setEntry, HISTORY_WINDOW]

/-- **C4 (amended).** The completion ratio equals
`listenDuration / trackDuration` exactly when both fields are provided and
both are non-zero; it defaults to `1` when either field is missing **or
zero** — in particular an event with `listenDuration = 0` and a provided
non-zero track duration is processed with ratio `1`, not `0`. -/
theorem completionRatio_spec :
    (∀ l d : ℚ, completionRatio (some l) (some d) =
      if l = 0 ∨ d = 0 then 1 else l / d) ∧
    (∀ d : Option ℚ, completionRatio none d = 1) ∧
    (∀ l : Option ℚ, completionRatio l none = 1) := by
  refine ⟨fun l d => ?_, fun d => rfl, fun l => ?_⟩
  · simp only [completionRatio]
    by_cases hl : l = 0
    · simp [hl]
    · by_cases hd : d = 0
      · simp [hl, hd]
      · simp [hl, hd]
  · cases l <;> rfl

/-! ## Claim C5: discovery-openness bounds and per-event change -/

/-- **C5.** From a fresh engine (initial `discoveryOpenness = 0.3`), after
every recorded sequence `0.1 ≤ discoveryOpenness ≤ 0.5`, and each further
event moves it to `max 0.1 (d - 0.05)` when more than 5 of the last 10
(post-append) history entries are skips, to `min 0.5 (d + 0.05)` when fewer
than 2 are, and leaves it unchanged otherwise. -/
theorem discoveryOpenness_bounds_and_step (events : List ListeningEvent) :
    newEngine.userProfile.discoveryOpenness = 3/10 ∧
    (1/10 ≤ (runEvents events).userProfile.discoveryOpenness ∧
      (runEvents events).userProfile.discoveryOpenness ≤ 1/2) ∧
    (∀ ev : ListeningEvent,
      (recordListeningEvent (runEvents events) ev).userProfile.discoveryOpenness =
        if 5 < recentSkipCount (recordListeningEvent (runEvents events) ev).listeningHistory
        then max (1/10) ((runEvents events).userProfile.discoveryOpenness - 1/20)
        else if recentSkipCount
            (recordListeningEvent (runEvents events) ev).listeningHistory < 2
        then min (1/2) ((runEvents events).userProfile.discoveryOpenness + 1/20)
        else (runEvents events).userProfile.discoveryOpenness) :=
  ⟨rfl, runEvents_discoveryOpenness_bounds events,
    fun ev => record_discoveryOpenness (runEvents events) ev⟩

/-! ## Claim C7: the strategy selector -/

/-- **C7.** The strategy is `focus_mode` iff more than 5 of the last 10
history entries are skips (the rate is the count divided by the constant 10,
so `> 0.5` is exactly `count > 5` even for histories shorter than 10),
else `discovery_mode` iff `discoveryOpenness > 0.4`, else `balanced`. -/
theorem getRecommendationStrategy_spec (e : MusicRecommendationEngine) :
    (getRecommendationStrategy e = "focus_mode" ↔
      5 < recentSkipCount e.listeningHistory) ∧
    (getRecommendationStrategy e = "discovery_mode" ↔
      (recentSkipCount e.listeningHistory ≤ 5 ∧
        2/5 < e.userProfile.discoveryOpenness)) ∧
    (getRecommendationStrategy e = "balanced" ↔
      (recentSkipCount e.listeningHistory ≤ 5 ∧
        e.userProfile.discoveryOpenness ≤ 2/5)) := by
  have hk : ((1 : ℚ)/2 < (recentSkipCount e.listeningHistory : ℚ) / 10) ↔
      5 < recentSkipCount e.listeningHistory := by
    rw [div_lt_div_iff₀ (by norm_num) (by norm_num)]
    norm_cast
    omega
  simp only [getRecommendationStrategy]
  split_ifs with h1 h2
  · have h5 := hk.mp h1
    refine ⟨iff_of_true rfl h5, iff_of_false (by decide) ?_, iff_of_false (by decide) ?_⟩
    · rintro ⟨hle, _⟩; omega
    · rintro ⟨hle, _⟩; omega
  · have h5 : ¬ 5 < recentSkipCount e.listeningHistory := fun hgt => h1 (hk.mpr hgt)
    refine ⟨iff_of_false (by decide) h5,
      iff_of_true rfl ⟨by omega, h2⟩, iff_of_false (by decide) ?_⟩
    rintro ⟨_, hd⟩; linarith
  · have h5 : ¬ 5 < recentSkipCount e.listeningHistory := fun hgt => h1 (hk.mpr hgt)
    refine ⟨iff_of_false (by decide) h5, iff_of_false (by decide) ?_,
      iff_of_true rfl ⟨by omega, by linarith⟩⟩
    rintro ⟨_, hd⟩; linarith

/-! ## Claim C8: the repetition-penalty check order -/

/-- **C8.** A candidate whose id is in `recentlyPlayed` (in particular one in
both recency sets) gets penalty `-80`; the `-100` penalty is returned exactly
when the id is in `recentlySkipped` but not in `recentlyPlayed`. -/
theorem calculateRepetitionPenalty_spec (p : UserTasteProfile) (candidate : Song)
    (context : SessionContext) :
    (candidate.id ∈ p.recentlyPlayed → candidate.id ∈ p.recentlySkipped →
      calculateRepetitionPenalty p candidate context = -80) ∧
    (calculateRepetitionPenalty p candidate context = -100 ↔
      (candidate.id ∈ p.recentlySkipped ∧ candidate.id ∉ p.recentlyPlayed)) := by
  unfold calculateRepetitionPenalty
  constructor
  · intro h1 _
    rw [if_pos h1]
  · by_cases h1 : candidate.id ∈ p.recentlyPlayed
    · rw [if_pos h1]
      exact iff_of_false (by norm_num) (fun h => absurd h1 h.2)
    · rw [if_neg h1]
      by_cases h2 : candidate.id ∈ p.recentlySkipped
      · rw [if_pos h2]
        exact iff_of_true rfl ⟨h2, h1⟩
      · rw [if_neg h2]
        dsimp only
        constructor
        · intro h
          split at h <;> norm_num at h
        · rintro ⟨h, _⟩
          exact absurd h h2

/-- A profile whose recency sets both contain the track id `"t1"`. -/
def profileC8 : UserTasteProfile :=
  { emptyProfile with recentlyPlayed := ["t1"], recentlySkipped := ["t1"] }

/-- A candidate with the doubly-listed id. -/
def songC8 : Song := { id := "t1", artist := "a" }

/-- A minimal session context. -/
def ctxC8 : SessionContext := { currentSong := { id := "c0", artist := "z" } }

/-- Witness for `calculateRepetitionPenalty_spec` at a concrete track listed
in both recency sets. -/
theorem calculateRepetitionPenalty_spec_witness :
    songC8.id ∈ profileC8.recentlyPlayed ∧ songC8.id ∈ profileC8.recentlySkipped ∧
    calculateRepetitionPenalty profileC8 songC8 ctxC8 = -80 :=
  ⟨by decide, by decide,
    (calculateRepetitionPenalty_spec profileC8 songC8 ctxC8).1 (by decide) (by decide)⟩

/-! ## Claim C6: favorites are always the current top ten -/

theorem runEvents_keys_nodup (events : List ListeningEvent) :
    (((runEvents events).userProfile.artistPreferences.map Prod.fst).Nodup) ∧
    (((runEvents events).userProfile.genrePreferences.map Prod.fst).Nodup) := by
  unfold runEvents
  refine foldl_record_invariant
    (P := fun e => ((e.userProfile.artistPreferences.map Prod.fst).Nodup) ∧
      ((e.userProfile.genrePreferences.map Prod.fst).Nodup))
    (Q := fun _ => True) ?_ events newEngine (fun _ _ => trivial) ?_
  · intro e ev _ hP
    constructor
    · rw [record_artistPreferences]
      cases ev.action <;> exact setEntry_keys_nodup hP.1 _ _
    · rw [record_genrePreferences]
      cases ev.genre with
      | none => exact hP.2
      | some g =>
        dsimp only
        split_ifs
        exacts [hP.2, setEntry_keys_nodup hP.2 _ _, setEntry_keys_nodup hP.2 _ _]
  · exact ⟨by simp [newEngine, emptyProfile], by simp [newEngine, emptyProfile]⟩

theorem runEvents_favorites_inv (events : List ListeningEvent) :
    (runEvents events).userProfile.favoriteArtists =
      computeFavorites (runEvents events).userProfile.artistPreferences := by
  unfold runEvents
  refine foldl_record_invariant
    (P := fun e => e.userProfile.favoriteArtists =
      computeFavorites e.userProfile.artistPreferences)
    (Q := fun _ => True) ?_ events newEngine (fun _ _ => trivial) rfl
  intro e ev _ _
  exact record_favoriteArtists e ev

theorem computeFavorites_length (m : List (String × ℚ)) :
    (computeFavorites m).length = min 10 m.length := by
  simp [computeFavorites, List.length_take, List.length_insertionSort]

theorem computeFavorites_pairwise {m : List (String × ℚ)}
    (hnd : (m.map Prod.fst).Nodup) :
    (computeFavorites m).Pairwise (fun a b => getScore m b ≤ getScore m a) := by
  have htake : List.Pairwise entryGE ((List.insertionSort entryGE m).take 10) :=
    List.Pairwise.sublist (List.take_sublist _ _)
      (List.sorted_insertionSort entryGE m)
  rw [computeFavorites, List.pairwise_map]
  refine htake.imp_of_mem ?_
  intro p q hp hq hR
  have hpm : p ∈ m :=
    (List.perm_insertionSort entryGE m).mem_iff.mp ((List.take_sublist _ _).subset hp)
  have hqm : q ∈ m :=
    (List.perm_insertionSort entryGE m).mem_iff.mp ((List.take_sublist _ _).subset hq)
  obtain ⟨kp, vp⟩ := p
  obtain ⟨kq, vq⟩ := q
  rw [getScore_eq_of_mem hnd hpm, getScore_eq_of_mem hnd hqm]
  exact hR

/-- **C6.** After every recorded event (and initially), `favoriteArtists`
is exactly the stable descending-by-score top-ten projection of the current
`artistPreferences`: it equals `computeFavorites` of the map, has
`min 10 (#artists)` entries, and its artists are ordered by non-increasing
current affinity. -/
theorem favoriteArtists_top10 (events : List ListeningEvent) :
    (runEvents events).userProfile.favoriteArtists =
      computeFavorites (runEvents events).userProfile.artistPreferences ∧
    (runEvents events).userProfile.favoriteArtists.length =
      min 10 (runEvents events).userProfile.artistPreferences.length ∧
    (runEvents events).userProfile.favoriteArtists.Pairwise
      (fun a b => getScore (runEvents events).userProfile.artistPreferences b ≤
        getScore (runEvents events).userProfile.artistPreferences a) := by
  have hfav := runEvents_favorites_inv events
  have hnd := (runEvents_keys_nodup events).1
  refine ⟨hfav, ?_, ?_⟩
  · rw [hfav]
    exact computeFavorites_length _
  · rw [hfav]
    exact computeFavorites_pairwise hnd

/-! ## Claim C3: export/import round trip -/

theorem entriesOfJson_map (l : List (String × ℚ)) :
    entriesOfJson (l.map entryToJson) = Except.ok l := by
  induction l with
  | nil => rfl
  | cons hd tl ih =>
    obtain ⟨k, v⟩ := hd
    simp [entriesOfJson, entryToJson, entryOfJson, ih]

theorem strsOfJson_map (l : List String) :
    strsOfJson (l.map Json.str) = Except.ok l := by
  induction l with
  | nil => rfl
  | cons hd tl ih =>
    simp [strsOfJson, strOfJson, ih]

/-- Importing the engine's own export restores the whole state (the import
only writes the four exported profile fields, and each decodes back to
exactly the exported value). -/
theorem importProfile_export {e : MusicRecommendationEngine}
    (ha : (e.userProfile.artistPreferences.map Prod.fst).Nodup)
    (hg : (e.userProfile.genrePreferences.map Prod.fst).Nodup) :
    importProfile e (some (exportProfile e)) = e := by
  have h1 : toEntries (jsField (jsField (JsOut.val (exportProfile e)) "profile")
      "artistPreferences") = Except.ok e.userProfile.artistPreferences := by
    simp [exportProfile, jsField, lookupField, toEntries, entriesOfJson_map]
  have h2 : toEntries (jsField (jsField (JsOut.val (exportProfile e)) "profile")
      "genrePreferences") = Except.ok e.userProfile.genrePreferences := by
    simp [exportProfile, jsField, lookupField, toEntries, entriesOfJson_map]
  have h3 : toStrList (jsField (jsField (JsOut.val (exportProfile e)) "profile")
      "favoriteArtists") = Except.ok e.userProfile.favoriteArtists := by
    simp [exportProfile, jsField, lookupField, toStrList, strsOfJson_map]
  have h4 : toNum (jsField (jsField (JsOut.val (exportProfile e)) "profile")
      "discoveryOpenness") = Except.ok e.userProfile.discoveryOpenness := by
    simp [exportProfile, jsField, lookupField, toNum]
  simp only [importProfile, h1, h2, h3, h4, buildMap_self ha, buildMap_self hg]

/-- **C3.** For every state reachable by recording events,
`importProfile (exportProfile ())` restores `artistPreferences`,
`genrePreferences`, `favoriteArtists` and `discoveryOpenness` exactly
(same entries, same order, same numbers). -/
theorem roundTrip_export_import (events : List ListeningEvent) :
    (importProfile (runEvents events) (some (exportProfile (runEvents events)))).userProfile.artistPreferences
        = (runEvents events).userProfile.artistPreferences ∧
    (importProfile (runEvents events) (some (exportProfile (runEvents events)))).userProfile.genrePreferences
        = (runEvents events).userProfile.genrePreferences ∧
    (importProfile (runEvents events) (some (exportProfile (runEvents events)))).userProfile.favoriteArtists
        = (runEvents events).userProfile.favoriteArtists ∧
    (importProfile (runEvents events) (some (exportProfile (runEvents events)))).userProfile.discoveryOpenness
        = (runEvents events).userProfile.discoveryOpenness := by
  have h := importProfile_export (runEvents_keys_nodup events).1
    (runEvents_keys_nodup events).2
  rw [h]
  exact ⟨rfl, rfl, rfl, rfl⟩

/-! ## Claim C9: silent import failure without rollback -/

/-- A populated engine state. -/
def engineC9 : MusicRecommendationEngine :=
  { userProfile :=
    { emptyProfile with
      artistPreferences := [("x", 5)]
      genrePreferences := [("pop", 2)]
      favoriteArtists := ["x"] }
    listeningHistory := [] }

/-- A malformed blob: `artistPreferences` decodes fine, but `genrePreferences`
is a number, so `new Map(5)` throws after the first assignment has already
happened. -/
def badBlobC9 : Json :=
  .obj [("profile", .obj
    [("artistPreferences", .arr [.arr [.str "a", .num 1]]),
     ("genrePreferences", .num 5)])]

/-- **C9.** `importProfile` returns normally on every input — a failed
`JSON.parse` leaves the state untouched, and a blob whose decoding throws
midway leaves the profile partially updated with no rollback: here
`artistPreferences` has already been replaced while `genrePreferences`,
`favoriteArtists` and `discoveryOpenness` keep their old values. -/
theorem importProfile_silent_and_partial :
    (∀ e : MusicRecommendationEngine, importProfile e none = e) ∧
    (importProfile engineC9 (some badBlobC9)).userProfile.artistPreferences = [("a", 1)] ∧
    engineC9.userProfile.artistPreferences = [("x", 5)] ∧
    (importProfile engineC9 (some badBlobC9)).userProfile.genrePreferences =
      engineC9.userProfile.genrePreferences ∧
    (importProfile engineC9 (some badBlobC9)).userProfile.favoriteArtists =
      engineC9.userProfile.favoriteArtists ∧
    (importProfile engineC9 (some badBlobC9)).userProfile.discoveryOpenness =
      engineC9.userProfile.discoveryOpenness :=
  ⟨fun _ => rfl, rfl, rfl, rfl, rfl, rfl⟩

/-! ## Claim C10: import does not clamp `discoveryOpenness` -/

/-- A well-formed blob carrying `discoveryOpenness = 0.9`, outside
`[0.1, 0.5]`. -/
def blobC10 : Json :=
  .obj [("profile", .obj
    [("artistPreferences", .arr []),
     ("genrePreferences", .arr []),
     ("favoriteArtists", .arr []),
     ("discoveryOpenness", .num (9/10))])]

/-- **C10.** `importProfile` copies `discoveryOpenness` verbatim: importing a
well-formed blob with value `0.9` leaves the profile outside the `[0.1, 0.5]`
band that recording events maintains. -/
theorem importProfile_discoveryOpenness_unclamped :
    (importProfile newEngine (some blobC10)).userProfile.discoveryOpenness = 9/10 ∧
    ¬ ((importProfile newEngine (some blobC10)).userProfile.discoveryOpenness ≤ 1/2) := by
  have h : (importProfile newEngine (some blobC10)).userProfile.discoveryOpenness
      = 9/10 := rfl
  refine ⟨h, ?_⟩
  rw [h]
  norm_num

/-! ## Claim C1: shape of the recommendation list -/

theorem subperm_map (f : α → β) {l₁ l₂ : List α} (h : l₁.Subperm l₂) :
    (l₁.map f).Subperm (l₂.map f) := by
  obtain ⟨l, hp, hs⟩ := h
  exact ⟨l.map f, hp.map f, hs.map f⟩

theorem subperm_nodup {l₁ l₂ : List α} (h : l₁.Subperm l₂) (hn : l₂.Nodup) :
    l₁.Nodup := by
  obtain ⟨l, hp, hs⟩ := h
  exact hp.nodup (hs.nodup hn)

theorem perm_append_sublist_subperm {l₁ l₁' l₂ l₂' : List α}
    (hp : l₁.Perm l₁') (hs : l₂.Sublist l₂') : (l₁ ++ l₂).Subperm (l₁' ++ l₂') :=
  (hp.append_right l₂).subperm.trans (hs.append_left l₁').subperm

/-- The two bucket tests of `recommendNextSongs` are pointwise complementary. -/
theorem discoveryTest_eq_not_familiarTest (p : UserTasteProfile) (s : Song × ℚ) :
    discoveryTest p s = !(familiarTest p s) := by
  unfold discoveryTest familiarTest
  rw [Bool.not_or]
  congr 1
  rw [← decide_not]
  exact decide_eq_decide.mpr not_lt.symm

/-- Core facts about the bucket-take-then-backfill selection performed by
`recommendNextSongs`, for any scored pool `T`, bucket test `pr` and quotas
`a + b = count`. -/
theorem blend_spec (T : List (Song × ℚ)) (pr : (Song × ℚ) → Bool)
    (a b count : ℕ) (hab : a + b = count) (r : List Song)
    (hr : r =
      (if (((T.filter pr).take a).map Prod.fst ++
            ((T.filter (fun x => !(pr x))).take b).map Prod.fst).length < count then
        (((T.filter pr).take a).map Prod.fst ++
            ((T.filter (fun x => !(pr x))).take b).map Prod.fst) ++
          ((T.filter (fun s => !(decide (s.1 ∈
              (((T.filter pr).take a).map Prod.fst ++
                ((T.filter (fun x => !(pr x))).take b).map Prod.fst))))).take
            (count - (((T.filter pr).take a).map Prod.fst ++
              ((T.filter (fun x => !(pr x))).take b).map Prod.fst).length)).map Prod.fst
      else
        (((T.filter pr).take a).map Prod.fst ++
          ((T.filter (fun x => !(pr x))).take b).map Prod.fst))) :
    r.length ≤ count ∧
    ((T.map Prod.fst).Nodup → r.length = min count T.length) ∧
    ((T.map (fun s => s.1.id)).Nodup → (r.map Song.id).Nodup) := by
  set fam := T.filter pr with hfamdef
  set disc := T.filter (fun x => !(pr x)) with hdiscdef
  set r0pairs := fam.take a ++ disc.take b with hr0defn
  have hr0map : (fam.take a).map Prod.fst ++ (disc.take b).map Prod.fst =
      r0pairs.map Prod.fst := (List.map_append _ _ _).symm
  rw [hr0map] at hr
  simp only [List.length_map] at hr
  have hfd : (fam ++ disc).Perm T := List.filter_append_perm pr T
  have hfdlen : fam.length + disc.length = T.length := by
    simpa [List.length_append] using hfd.length_eq
  have hsub : r0pairs.Subperm T :=
    (((List.take_sublist a fam).append (List.take_sublist b disc)).subperm).trans
      hfd.subperm
  have hr0len : r0pairs.length = min a fam.length + min b disc.length := by
    simp [hr0defn, List.length_take]
  have hr0c : r0pairs.length ≤ count := by
    have h1 := min_le_left a fam.length
    have h2 := min_le_left b disc.length
    omega
  have hr0T : r0pairs.length ≤ T.length := by
    have h1 := min_le_right a fam.length
    have h2 := min_le_right b disc.length
    omega
  by_cases hlt : r0pairs.length < count
  · rw [if_pos hlt] at hr
    have key : (T.map Prod.fst).Nodup →
        (T.filter (fun s => !(decide (s.1 ∈ r0pairs.map Prod.fst)))).length =
          T.length - r0pairs.length ∧
        (r0pairs ++ (T.filter (fun s => !(decide (s.1 ∈ r0pairs.map Prod.fst)))).take
          (count - r0pairs.length)).Subperm T := by
      intro hfst
      have hTnd : T.Nodup := List.Nodup.of_map _ hfst
      have hr0nd : r0pairs.Nodup := subperm_nodup hsub hTnd
      have hmemiff : ∀ x ∈ T, (x.1 ∈ r0pairs.map Prod.fst ↔ x ∈ r0pairs) := by
        intro x hx
        constructor
        · intro hmem
          obtain ⟨y, hy, hyx⟩ := List.mem_map.mp hmem
          have hyT : y ∈ T := hsub.subset hy
          have heq : y = x := List.inj_on_of_nodup_map hfst hyT hx hyx
          exact heq ▸ hy
        · intro hmem
          exact List.mem_map.mpr ⟨x, hmem, rfl⟩
      have hperm : (T.filter (fun s => decide (s.1 ∈ r0pairs.map Prod.fst))).Perm
          r0pairs := by
        apply List.perm_of_nodup_nodup_toFinset_eq (hTnd.filter _) hr0nd
        ext x
        simp only [List.mem_toFinset, List.mem_filter, decide_eq_true_eq]
        constructor
        · rintro ⟨hxT, hxm⟩
          exact (hmemiff x hxT).mp hxm
        · intro hxr
          exact ⟨hsub.subset hxr, (hmemiff x (hsub.subset hxr)).mpr hxr⟩
      constructor
      · have htot := (List.filter_append_perm
          (fun s => decide (s.1 ∈ r0pairs.map Prod.fst)) T).length_eq
        have hpos := hperm.length_eq
        rw [List.length_append] at htot
        omega
      · refine (perm_append_sublist_subperm hperm.symm (List.take_sublist _ _)).trans ?_
        exact (List.filter_append_perm _ T).subperm
    refine ⟨?_, ?_, ?_⟩
    · rw [hr]
      simp only [List.length_append, List.length_map, List.length_take]
      omega
    · intro hnd
      obtain ⟨hfl, -⟩ := key hnd
      rw [hr]
      simp only [List.length_append, List.length_map, List.length_take, hfl]
      omega
    · intro hids
      have hfst : (T.map Prod.fst).Nodup := by
        have hcomp : T.map (fun s => s.1.id) = (T.map Prod.fst).map Song.id := by
          simp [List.map_map, Function.comp_def]
        exact List.Nodup.of_map Song.id (hcomp ▸ hids)
      obtain ⟨-, hCsub⟩ := key hfst
      have hCmap : r.map Song.id =
          (r0pairs ++ (T.filter (fun s => !(decide (s.1 ∈ r0pairs.map Prod.fst)))).take
            (count - r0pairs.length)).map (fun s => s.1.id) := by
        rw [hr]
        simp [List.map_append, List.map_map, Function.comp_def]
      rw [hCmap]
      exact subperm_nodup (subperm_map (fun s : Song × ℚ => s.1.id) hCsub) hids
  · rw [if_neg hlt] at hr
    refine ⟨?_, ?_, ?_⟩
    · rw [hr, List.length_map]
      omega
    · intro _
      rw [hr, List.length_map]
      omega
    · intro hids
      have hmap : r.map Song.id = r0pairs.map (fun s => s.1.id) := by
        rw [hr]
        simp [List.map_map, Function.comp_def]
      rw [hmap]
      exact subperm_nodup (subperm_map (fun s : Song × ℚ => s.1.id) hsub) hids

/-- **C1 (amended).** For every engine state whose `discoveryOpenness` lies in
`[0, 1]` (every state reachable by recording events does, its band being
`[0.1, 0.5]`), every candidate list, context and count: the returned list has
at most `count` entries; when the candidates are pairwise distinct exactly
`min count |candidates|` entries are returned; and when the candidate **ids**
are pairwise distinct no two returned entries share a track id. (With
duplicate ids among distinct candidates the original no-duplicate claim
fails, see the counterexample.) -/
theorem recommendNextSongs_spec (e : MusicRecommendationEngine)
    (candidates : List Song) (context : SessionContext) (count : ℕ)
    (hd0 : 0 ≤ e.userProfile.discoveryOpenness)
    (hd1 : e.userProfile.discoveryOpenness ≤ 1) :
    (recommendNextSongs e candidates context count).length ≤ count ∧
    (candidates.Nodup →
      (recommendNextSongs e candidates context count).length
        = min count candidates.length) ∧
    ((candidates.map Song.id).Nodup →
      ((recommendNextSongs e candidates context count).map Song.id).Nodup) := by
  set T := List.insertionSort scoredGE
    (candidates.map (fun c => (c, scoreSong e.userProfile c context))) with hT
  set tF : ℤ := ⌈(count : ℚ) * (1 - e.userProfile.discoveryOpenness)⌉ with htF
  have htF0 : 0 ≤ tF := Int.ceil_nonneg
    (mul_nonneg (Nat.cast_nonneg count) (by linarith))
  have htFle : tF ≤ (count : ℤ) := by
    rw [htF, Int.ceil_le]
    push_cast
    exact mul_le_of_le_one_right (Nat.cast_nonneg count) (by linarith)
  have hab : tF.toNat + ((count : ℤ) - tF).toNat = count := by omega
  have hdiscfilt : T.filter (discoveryTest e.userProfile) =
      T.filter (fun x => !(familiarTest e.userProfile x)) :=
    List.filter_congr (fun x _ => discoveryTest_eq_not_familiarTest e.userProfile x)
  have hbody := blend_spec T (familiarTest e.userProfile) tF.toNat
    ((count : ℤ) - tF).toNat count hab (recommendNextSongs e candidates context count)
    (by simp only [recommendNextSongs]; rw [← hT, hdiscfilt])
  have hTfst : (T.map Prod.fst).Perm candidates := by
    have h1 : (candidates.map
        (fun c => (c, scoreSong e.userProfile c context))).map Prod.fst = candidates := by
      simp [List.map_map, Function.comp_def]
    exact h1 ▸ ((List.perm_insertionSort scoredGE _).map Prod.fst)
  refine ⟨hbody.1, ?_, ?_⟩
  · intro hnd
    have hTnd : (T.map Prod.fst).Nodup := hTfst.symm.nodup hnd
    have hres := hbody.2.1 hTnd
    rwa [show T.length = candidates.length from by
      rw [hT, List.length_insertionSort, List.length_map]] at hres
  · intro hids
    have hper : (T.map (fun s => s.1.id)).Perm (candidates.map Song.id) := by
      have h2 : ((T.map Prod.fst).map Song.id).Perm (candidates.map Song.id) :=
        hTfst.map Song.id
      simpa [List.map_map, Function.comp_def] using h2
    exact hbody.2.2 (hper.symm.nodup hids)

/-- First of two distinct candidates sharing the track id `"t1"`. -/
def sC1a : Song := { id := "t1", title := "A", artist := "x" }

/-- Second of two distinct candidates sharing the track id `"t1"`. -/
def sC1b : Song := { id := "t1", title := "B", artist := "y" }

/-- A minimal session context for the recommendation examples. -/
def ctxC1 : SessionContext := { currentSong := { id := "c0", artist := "z" } }

/-- **C1, counterexample.** On a fresh engine, asking for 2 recommendations
from two distinct candidate tracks that share the id `"t1"` returns both of
them: the returned list carries a duplicate track id, refuting the
unconditional no-duplicate-ids part of the claim. -/
theorem recommend_duplicate_ids_counterexample :
    ¬ (((recommendNextSongs newEngine [sC1a, sC1b] ctxC1 2).map Song.id).Nodup) := by
  set scored := [sC1a, sC1b].map
    (fun c => (c, scoreSong newEngine.userProfile c ctxC1)) with hscored
  set T := List.insertionSort scoredGE scored with hT
  have hTlen : T.length = 2 := by
    rw [hT, List.length_insertionSort, hscored]
    rfl
  have hfam : T.filter (familiarTest newEngine.userProfile) = [] := by
    apply List.filter_eq_nil_iff.mpr
    intro s _
    simp [familiarTest, newEngine, emptyProfile, getScore]
  have hdisc : T.filter (discoveryTest newEngine.userProfile) = T := by
    apply List.filter_eq_self.mpr
    intro s _
    simp [discoveryTest, newEngine, emptyProfile, getScore]
  have hceil : (⌈((2 : ℕ) : ℚ) * (1 - newEngine.userProfile.discoveryOpenness)⌉ : ℤ)
      = 2 := by
    show (⌈((2 : ℕ) : ℚ) * (1 - (3/10 : ℚ))⌉ : ℤ) = 2
    rw [show ((2 : ℕ) : ℚ) * (1 - (3/10 : ℚ)) = 7/5 by norm_num]
    rw [Int.ceil_eq_iff]
    norm_num
  have hres : recommendNextSongs newEngine [sC1a, sC1b] ctxC1 2 = T.map Prod.fst := by
    simp only [recommendNextSongs]
    rw [← hscored, ← hT, hfam, hdisc, hceil]
    norm_num
    exact le_of_eq hTlen
  rw [hres]
  intro hnodup
  have hper : (T.map Prod.fst).Perm [sC1a, sC1b] := by
    have h1 : scored.map Prod.fst = [sC1a, sC1b] := rfl
    exact h1 ▸ ((List.perm_insertionSort scoredGE scored).map Prod.fst)
  have hper2 : ((T.map Prod.fst).map Song.id).Perm ["t1", "t1"] := hper.map Song.id
  have : (["t1", "t1"] : List String).Nodup := hper2.nodup hnodup
  simp at this

/-- First witness candidate, id `"t1"`. -/
def sC1c : Song := { id := "t1", title := "A", artist := "x" }

/-- Second witness candidate, id `"t2"`. -/
def sC1d : Song := { id := "t2", title := "B", artist := "y" }

/-- Witness for `recommendNextSongs_spec` on a fresh engine with two
distinct-id candidates and `count = 2`. -/
theorem recommendNextSongs_spec_witness :
    (0 ≤ newEngine.userProfile.discoveryOpenness ∧
      newEngine.userProfile.discoveryOpenness ≤ 1) ∧
    ([sC1c, sC1d].map Song.id).Nodup ∧
    ((recommendNextSongs newEngine [sC1c, sC1d] ctxC1 2).map Song.id).Nodup ∧
    (recommendNextSongs newEngine [sC1c, sC1d] ctxC1 2).length
      = min 2 ([sC1c, sC1d].length) := by
  have h0 : (0 : ℚ) ≤ newEngine.userProfile.discoveryOpenness := by
    norm_num [newEngine, emptyProfile]
  have h1 : newEngine.userProfile.discoveryOpenness ≤ 1 := by
    norm_num [newEngine, emptyProfile]
  have hids : (([sC1c, sC1d]).map Song.id).Nodup := by decide
  have hnd : ([sC1c, sC1d]).Nodup := by decide
  have hspec := recommendNextSongs_spec newEngine [sC1c, sC1d] ctxC1 2 h0 h1
  exact ⟨⟨h0, h1⟩, hids, hspec.2.2 hids, hspec.2.1 hnd⟩

end HydeEngine
